import Mathlib

/-!
Shallow embedding of the TSPLIB loader of vroom (src/loaders/tsplib_loader.h)
and theorems settling the specification's claims about it.

Modelling conventions:
* `distance_t` values are modelled as integers (`ℤ`), indices as `ℕ`, C
  `double`s as real numbers.
* `matrix<distance_t> m {_dimension}` is modelled as a total function
  `ℕ → ℕ → ℤ` starting from the all-zero function; every cell a claim talks
  about is explicitly written before being read, so the initial contents
  never matter. Out-of-range accesses, undefined behaviour in C++, are
  absorbed by the total model, and theorems about the `UPPER_ROW` loop carry
  a `0 < dim` hypothesis because for `_dimension = 0` the C++ loop bound
  `_dimension - 1` underflows (size_t) instead of producing the benign empty
  loop of the `ℕ` model.
* The `std::istringstream` over the captured data section is modelled as a
  `List ℕ` of its numeric tokens; `operator>>` on an exhausted or failed
  stream stores 0 (C++11 semantics) and the stream stays failed, which the
  list model reproduces: reading from `[]` yields 0 and leaves `[]`.
* The EDGE_WEIGHT_SECTION regex `EDGE_WEIGHT_SECTION\s*(([0-9]+\s+)+)`
  captures the maximal run of whitespace-separated numbers immediately
  following the keyword.  At token granularity the capture is
  `takeWhile isNum`, and `regex_search` fails exactly when that run is
  empty (a non-numeric token right after the keyword, or no data at all).
-/

/-- Edge-weight formats supported for EXPLICIT instances.  The `EWF::NONE`
value is unreachable in the data-section switch (`assert(false)`) and is
omitted from the model. -/
inductive EWF where
  | FULL_MATRIX
  | UPPER_ROW
  | UPPER_DIAG_ROW
  | LOWER_DIAG_ROW
deriving DecidableEq

/-- Edge-weight types (`enum class EWT` of the loader). -/
inductive EWT where
  | NONE
  | EXPLICIT
  | EUC_2D
  | CEIL_2D
  | GEO
  | ATT
deriving DecidableEq

/-- One whitespace-separated token of the data section: a number or
anything else. -/
inductive Token where
  | num (n : ℕ)
  | other
deriving DecidableEq

/-- Whether a token is a run of digits `[0-9]+`. -/
def Token.isNum : Token → Bool
  | .num _ => true
  | .other => false

/-- Numeric value of a token (0 for non-numeric ones, never used there). -/
def Token.val : Token → ℕ
  | .num n => n
  | .other => 0

/-- Dense distance matrix, as a total function on index pairs. -/
abbrev Mat : Type := ℕ → ℕ → ℤ

/-- Single assignment `m[i][j] = v`. -/
def Mat.set (m : Mat) (i j : ℕ) (v : ℤ) : Mat :=
  fun a b => if a = i ∧ b = j then v else m a b

/-- Mirrored assignment `m[i][j] = v; m[j][i] = v` used by the
UPPER_ROW / UPPER_DIAG_ROW / LOWER_DIAG_ROW cases and the coordinate path. -/
def mirrorSet (m : Mat) (i j : ℕ) (v : ℤ) : Mat :=
  (m.set i j v).set j i v

/-- Reading one value with `data >> x`: the head token, or 0 once the
stream is exhausted (C++11 failure semantics). -/
def readVal (l : List ℕ) : ℕ × List ℕ :=
  (l.headD 0, l.tail)

/-- Row-major index pairs of the FULL_MATRIX reading loop. -/
def pairsFull (dim : ℕ) : List (ℕ × ℕ) :=
  (List.range dim).flatMap fun i => (List.range dim).map fun j => (i, j)

/-- Index pairs of the UPPER_ROW reading loop:
`0 ≤ i < dim - 1`, `i + 1 ≤ j < dim`. -/
def pairsUpper (dim : ℕ) : List (ℕ × ℕ) :=
  (List.range (dim - 1)).flatMap fun i =>
    (List.range' (i + 1) (dim - (i + 1))).map fun j => (i, j)

/-- Index pairs of the UPPER_DIAG_ROW reading loop: `i ≤ j < dim`. -/
def pairsUpperDiag (dim : ℕ) : List (ℕ × ℕ) :=
  (List.range dim).flatMap fun i =>
    (List.range' i (dim - i)).map fun j => (i, j)

/-- Index pairs of the LOWER_DIAG_ROW reading loop: `0 ≤ j ≤ i < dim`. -/
def pairsLowerDiag (dim : ℕ) : List (ℕ × ℕ) :=
  (List.range dim).flatMap fun i => (List.range (i + 1)).map fun j => (i, j)

/-- Reading loop of the FULL_MATRIX case: one plain assignment per pair. -/
def fillFull (ps : List (ℕ × ℕ)) (s : Mat × List ℕ) : Mat × List ℕ :=
  ps.foldl
    (fun s p =>
      let r := readVal s.2
      (s.1.set p.1 p.2 (r.1 : ℤ), r.2))
    s

/-- Reading loop of the mirrored cases: each read value is written to
`m[i][j]` and `m[j][i]`. -/
def fillMirror (ps : List (ℕ × ℕ)) (s : Mat × List ℕ) : Mat × List ℕ :=
  ps.foldl
    (fun s p =>
      let r := readVal s.2
      (mirrorSet s.1 p.1 p.2 (r.1 : ℤ), r.2))
    s

/-- Diagonal-zeroing loop run after each EXPLICIT fill: "Zeros on the
diagonal for further undirected graph build." -/
def zeroDiag (dim : ℕ) (m : Mat) : Mat :=
  (List.range dim).foldl (fun m i => m.set i i 0) m

/-- Freshly constructed matrix. -/
def mat0 : Mat := fun _ _ => 0

/-- EDGE_WEIGHT_SECTION switch of the constructor: fill the matrix from the
numeric tokens according to the format, then zero the diagonal. -/
def buildExplicit (fmt : EWF) (dim : ℕ) (nums : List ℕ) : Mat :=
  zeroDiag dim <|
    match fmt with
    | .FULL_MATRIX => (fillFull (pairsFull dim) (mat0, nums)).1
    | .UPPER_ROW => (fillMirror (pairsUpper dim) (mat0, nums)).1
    | .UPPER_DIAG_ROW => (fillMirror (pairsUpperDiag dim) (mat0, nums)).1
    | .LOWER_DIAG_ROW => (fillMirror (pairsLowerDiag dim) (mat0, nums)).1

/-- EXPLICIT path of the constructor from the data section onwards: the
EDGE_WEIGHT_SECTION regex capture is the maximal numeric-token prefix; an
empty capture means `regex_search` failed and `custom_exception` is thrown,
otherwise the matrix is built from however many numbers are present (the
count checks of the source are commented out). -/
def parseExplicit (fmt : EWF) (dim : ℕ) (sect : List Token) :
    Except String Mat :=
  let nums := (sect.takeWhile Token.isNum).map Token.val
  if nums.isEmpty then
    .error ("incorrect \"EDGE_WEIGHT_SECTION\".")
  else
    .ok (buildExplicit fmt dim nums)

/-- Whether the loader completed (no exception thrown). -/
def resOk : Except String Mat → Bool
  | .ok _ => true
  | .error _ => false

/-- Matrix of a completed load (the all-zero matrix for a failed one,
never used there). -/
def getMat : Except String Mat → Mat
  | .ok m => m
  | .error _ => mat0

/-- Front of the constructor for an EXPLICIT instance: `dimField` models
the capture of the DIMENSION regex
`DIMENSION\s*:\s*([0-9]+)\s` — `some n` whenever the key is present with a
digit string of value `n` (the digit string "0" matches, giving `some 0`),
`none` when the regex does not match, in which case the constructor throws.
No check on the captured value is performed. -/
def tsplibLoadExplicit (dimField : Option ℕ) (fmt : EWF) (sect : List Token) :
    Except String Mat :=
  match dimField with
  | none => .error ("incorrect \"DIMENSION\" key.")
  | some dim => parseExplicit fmt dim sect

/-- Symmetry of a matrix. -/
def Mat.Symm (m : Mat) : Prop := ∀ a b, m a b = m b a

theorem mirrorSet_symm {m : Mat} (h : m.Symm) (i j : ℕ) (v : ℤ) :
    (mirrorSet m i j v).Symm := by
  intro a b
  simp only [mirrorSet, Mat.set]
  split_ifs <;> first | rfl | (exact h a b) | tauto

theorem setDiag_symm {m : Mat} (h : m.Symm) (i : ℕ) (v : ℤ) :
    (m.set i i v).Symm := by
  intro a b
  simp only [Mat.set]
  split_ifs <;> first | rfl | (exact h a b) | tauto

theorem mat0_symm : mat0.Symm := fun _ _ => rfl

theorem fillMirror_symm (ps : List (ℕ × ℕ)) :
    ∀ s : Mat × List ℕ, s.1.Symm → ((fillMirror ps s).1).Symm := by
  induction ps with
  | nil => exact fun _ h => h
  | cons p t ih =>
      intro s h
      exact ih _ (mirrorSet_symm h p.1 p.2 _)

theorem zeroDiag_symm (dim : ℕ) {m : Mat} (h : m.Symm) :
    (zeroDiag dim m).Symm := by
  unfold zeroDiag
  generalize List.range dim = l
  induction l generalizing m with
  | nil => exact h
  | cons i t ih => exact ih (setDiag_symm h i 0)

/-- Diagonal cells after the diagonal-zeroing loop. -/
theorem foldl_setDiag_diag :
    ∀ (l : List ℕ) (m : Mat) (a : ℕ),
      (l.foldl (fun m i => m.set i i 0) m) a a =
        if a ∈ l then 0 else m a a := by
  intro l
  induction l with
  | nil => simp
  | cons i t ih =>
      intro m a
      rw [List.foldl_cons, ih]
      by_cases hat : a ∈ t
      · simp [hat]
      · by_cases hai : a = i <;> simp [hat, hai, Mat.set]

theorem zeroDiag_diag (dim : ℕ) (m : Mat) (a : ℕ) (ha : a < dim) :
    zeroDiag dim m a a = 0 := by
  unfold zeroDiag
  rw [foldl_setDiag_diag]
  simp [List.mem_range, ha]

/-- Inner loop of the coordinate path for row `i`: `m[i][i] = 0`, then for
`j` from `i+1` to `dim-1` the distance `d i j` (the distance function
applied to `_nodes[i]`, `_nodes[j]`) is written to `m[i][j]` and `m[j][i]`. -/
def rowFill (d : ℕ → ℕ → ℤ) (dim : ℕ) (m : Mat) (i : ℕ) : Mat :=
  (List.range' (i + 1) (dim - (i + 1))).foldl
    (fun m j => mirrorSet m i j (d i j)) (m.set i i 0)

/-- Coordinate path of the constructor ("Computing symmetric matrix."),
parametric in the distance function selected through `dist_f_ptr`. -/
def coordMatrix (d : ℕ → ℕ → ℤ) (dim : ℕ) : Mat :=
  (List.range dim).foldl (rowFill d dim) mat0

theorem foldl_mirror_symm (d : ℕ → ℕ → ℤ) (i : ℕ) :
    ∀ (l : List ℕ) (m : Mat), m.Symm →
      (l.foldl (fun m j => mirrorSet m i j (d i j)) m).Symm := by
  intro l
  induction l with
  | nil => exact fun _ h => h
  | cons j t ih => exact fun m h => ih _ (mirrorSet_symm h i j _)

theorem rowFill_symm (d : ℕ → ℕ → ℤ) (dim : ℕ) {m : Mat} (h : m.Symm)
    (i : ℕ) : (rowFill d dim m i).Symm :=
  foldl_mirror_symm d i _ _ (setDiag_symm h i 0)

theorem foldl_rowFill_symm (d : ℕ → ℕ → ℤ) (dim : ℕ) :
    ∀ (l : List ℕ) (m : Mat), m.Symm → (l.foldl (rowFill d dim) m).Symm := by
  intro l
  induction l with
  | nil => exact fun _ h => h
  | cons i t ih => exact fun m h => ih _ (rowFill_symm d dim h i)

theorem coordMatrix_symm (d : ℕ → ℕ → ℤ) (dim : ℕ) :
    (coordMatrix d dim).Symm :=
  foldl_rowFill_symm d dim _ mat0 mat0_symm

/-- Mirrored writes off the diagonal never change a diagonal cell. -/
theorem mirrorSet_diag {i j : ℕ} (hne : j ≠ i) (m : Mat) (v : ℤ) (a : ℕ) :
    mirrorSet m i j v a a = m a a := by
  simp only [mirrorSet, Mat.set]
  have h1 : ¬(a = j ∧ a = i) := fun hc => hne (by omega)
  have h2 : ¬(a = i ∧ a = j) := fun hc => hne (by omega)
  rw [if_neg h1, if_neg h2]

theorem foldl_mirror_diag (d : ℕ → ℕ → ℤ) (i : ℕ) :
    ∀ (l : List ℕ), (∀ j ∈ l, j ≠ i) → ∀ (m : Mat) (a : ℕ),
      (l.foldl (fun m j => mirrorSet m i j (d i j)) m) a a = m a a := by
  intro l
  induction l with
  | nil => intro _ m a; rfl
  | cons j t ih =>
      intro hl m a
      rw [List.foldl_cons, ih (fun x hx => hl x (List.mem_cons_of_mem _ hx)),
        mirrorSet_diag (hl j (List.mem_cons_self _ _))]

theorem rowFill_diag (d : ℕ → ℕ → ℤ) (dim : ℕ) (m : Mat) (i a : ℕ) :
    rowFill d dim m i a a = if a = i then 0 else m a a := by
  unfold rowFill
  rw [foldl_mirror_diag]
  · simp only [Mat.set, and_self]
  · intro j hj
    rw [List.mem_range'_1] at hj
    omega

theorem foldl_rowFill_diag (d : ℕ → ℕ → ℤ) (dim : ℕ) :
    ∀ (l : List ℕ) (m : Mat) (a : ℕ),
      (l.foldl (rowFill d dim) m) a a = if a ∈ l then 0 else m a a := by
  intro l
  induction l with
  | nil => simp
  | cons i t ih =>
      intro m a
      rw [List.foldl_cons, ih, rowFill_diag]
      by_cases hat : a ∈ t
      · simp [hat]
      · by_cases hai : a = i <;> simp [hat, hai]

theorem coordMatrix_diag (d : ℕ → ℕ → ℤ) (dim : ℕ) (a : ℕ) (ha : a < dim) :
    coordMatrix d dim a a = 0 := by
  unfold coordMatrix
  rw [foldl_rowFill_diag]
  simp [List.mem_range, ha]

/-- C1: the specification claims every successfully parsed instance has a
symmetric matrix for every EXPLICIT format including FULL_MATRIX.  The
FULL_MATRIX case copies the data row-major without mirroring, so the claim
fails there (see the counterexample).  Amended: the mirrored EXPLICIT
formats UPPER_ROW, UPPER_DIAG_ROW and LOWER_DIAG_ROW, and the coordinate
path for any distance function, always produce a symmetric matrix.  The
`0 < dim` hypothesis excludes the dimension-zero UPPER_ROW loop, whose
C++ bound `_dimension - 1` underflows. -/
theorem C1_symmetric_except_full_matrix :
    (∀ (fmt : EWF) (dim : ℕ) (nums : List ℕ), fmt ≠ EWF.FULL_MATRIX →
        0 < dim → (buildExplicit fmt dim nums).Symm) ∧
      ∀ (d : ℕ → ℕ → ℤ) (dim : ℕ), (coordMatrix d dim).Symm := by
  constructor
  · intro fmt dim nums hf _
    cases fmt with
    | FULL_MATRIX => exact absurd rfl hf
    | UPPER_ROW => exact zeroDiag_symm dim (fillMirror_symm _ _ mat0_symm)
    | UPPER_DIAG_ROW => exact zeroDiag_symm dim (fillMirror_symm _ _ mat0_symm)
    | LOWER_DIAG_ROW => exact zeroDiag_symm dim (fillMirror_symm _ _ mat0_symm)
  · exact fun d dim => coordMatrix_symm d dim

/-- Witness for C1: the amended theorem applied to the concrete UPPER_ROW
instance of dimension 3 with data 10 15 20, at cell (0,1). -/
theorem C1_symmetric_except_full_matrix_witness :
    (EWF.UPPER_ROW ≠ EWF.FULL_MATRIX ∧ 0 < 3) ∧
      buildExplicit EWF.UPPER_ROW 3 [10, 15, 20] 0 1 =
        buildExplicit EWF.UPPER_ROW 3 [10, 15, 20] 1 0 :=
  ⟨⟨by decide, by decide⟩,
    C1_symmetric_except_full_matrix.1 EWF.UPPER_ROW 3 [10, 15, 20]
      (by decide) (by decide) 0 1⟩

/-- Counterexample for C1: the FULL_MATRIX instance of dimension 2 with
data 0 5 7 0 is parsed successfully, and its matrix has m[0][1] = 5 but
m[1][0] = 7: not symmetric. -/
theorem C1_full_matrix_asymmetric :
    resOk (parseExplicit EWF.FULL_MATRIX 2
        [Token.num 0, Token.num 5, Token.num 7, Token.num 0]) = true ∧
      getMat (parseExplicit EWF.FULL_MATRIX 2
          [Token.num 0, Token.num 5, Token.num 7, Token.num 0]) 0 1 = 5 ∧
      getMat (parseExplicit EWF.FULL_MATRIX 2
          [Token.num 0, Token.num 5, Token.num 7, Token.num 0]) 1 0 = 7 := by
  decide

/-- C2: the specification claims a shortfall of numbers, or non-numeric
content in the data section, makes the loader fail.  The count checks are
commented out in the source and `operator>>` on an exhausted stream silently
stores 0, so the claim fails (see the counterexample).  Amended: for a
positive dimension, the EXPLICIT load completes if and only if the data
section starts with a number (the only failure is the EDGE_WEIGHT_SECTION
regex finding no numeric run); the number of values is never checked. -/
theorem C2_completes_iff_leading_number :
    ∀ (fmt : EWF) (dim : ℕ) (sect : List Token), 0 < dim →
      (resOk (parseExplicit fmt dim sect) = true ↔
        sect.takeWhile Token.isNum ≠ []) := by
  intro fmt dim sect _
  by_cases h : sect.takeWhile Token.isNum = [] <;>
    simp [parseExplicit, resOk, h]

/-- Witness for C2: the amended theorem at FULL_MATRIX, dimension 2, a
one-number data section. -/
theorem C2_completes_iff_leading_number_witness :
    0 < 2 ∧
      (resOk (parseExplicit EWF.FULL_MATRIX 2 [Token.num 3]) = true ↔
        ([Token.num 3] : List Token).takeWhile Token.isNum ≠ []) :=
  ⟨by decide, C2_completes_iff_leading_number EWF.FULL_MATRIX 2 [Token.num 3]
    (by decide)⟩

/-- Counterexample for C2: a FULL_MATRIX instance of dimension 2 whose data
section has only 2 of the required 4 numbers completes and returns a matrix
(the missing values are read as 0), and so does one with a non-numeric
token inside the data section. -/
theorem C2_short_or_junk_data_accepted :
    resOk (parseExplicit EWF.FULL_MATRIX 2 [Token.num 0, Token.num 5]) = true ∧
      getMat (parseExplicit EWF.FULL_MATRIX 2 [Token.num 0, Token.num 5]) 0 1 = 5 ∧
      getMat (parseExplicit EWF.FULL_MATRIX 2 [Token.num 0, Token.num 5]) 1 0 = 0 ∧
      resOk (parseExplicit EWF.FULL_MATRIX 2
        [Token.num 0, Token.num 5, Token.other, Token.num 7, Token.num 0]) = true := by
  decide

/-- C4: every matrix handed out by the loader has a zero diagonal, for every
EXPLICIT format even when the data supplies nonzero diagonal values (the
diagonal is overwritten after the fill), and on the coordinate path for any
distance function (the diagonal is written to 0 directly). -/
theorem C4_diagonal_zero :
    (∀ (fmt : EWF) (dim : ℕ) (nums : List ℕ) (i : ℕ), i < dim →
        buildExplicit fmt dim nums i i = 0) ∧
      ∀ (d : ℕ → ℕ → ℤ) (dim i : ℕ), i < dim → coordMatrix d dim i i = 0 := by
  constructor
  · intro fmt dim nums i hi
    cases fmt <;> exact zeroDiag_diag dim _ i hi
  · exact fun d dim i hi => coordMatrix_diag d dim i hi

/-- Witness for C4: a FULL_MATRIX instance of dimension 1 whose single data
value 7 sits on the diagonal, and a coordinate instance with constant
distance 5; both diagonals read 0. -/
theorem C4_diagonal_zero_witness :
    (0 < 1 ∧ buildExplicit EWF.FULL_MATRIX 1 [7] 0 0 = 0) ∧
      (0 < 1 ∧ coordMatrix (fun _ _ => 5) 1 0 0 = 0) :=
  ⟨⟨by decide, C4_diagonal_zero.1 EWF.FULL_MATRIX 1 [7] 0 (by decide)⟩,
    ⟨by decide, C4_diagonal_zero.2 (fun _ _ => 5) 1 0 (by decide)⟩⟩

/-- Instance of C7: UPPER_ROW, DIMENSION 3, data section 10 15 20. -/
def upperRowExample : Except String Mat :=
  parseExplicit EWF.UPPER_ROW 3 [Token.num 10, Token.num 15, Token.num 20]

/-- C7: parsing the EXPLICIT UPPER_ROW instance with DIMENSION 3 and data
10 15 20 succeeds and yields exactly the matrix
[[0,10,15],[10,0,20],[15,20,0]]. -/
theorem C7_upper_row_mirror :
    resOk upperRowExample = true ∧
      getMat upperRowExample 0 0 = 0 ∧ getMat upperRowExample 0 1 = 10 ∧
      getMat upperRowExample 0 2 = 15 ∧ getMat upperRowExample 1 0 = 10 ∧
      getMat upperRowExample 1 1 = 0 ∧ getMat upperRowExample 1 2 = 20 ∧
      getMat upperRowExample 2 0 = 15 ∧ getMat upperRowExample 2 1 = 20 ∧
      getMat upperRowExample 2 2 = 0 := by
  decide

/-- C9: the specification claims an input with DIMENSION 0 is rejected.
The DIMENSION regex accepts the digit string "0" and no check on the
value exists, so the claim fails (see the counterexample).  Amended: the
only DIMENSION failure is a missing or malformed key (regex mismatch);
with `_dimension = 0` an EXPLICIT load whose data section starts with a
number completes and returns a matrix.  The UPPER_ROW format is excluded
because its dimension-zero loop bound `_dimension - 1` underflows in C++
rather than completing. -/
theorem C9_dimension_zero_accepted :
    (∀ (fmt : EWF) (sect : List Token), fmt ≠ EWF.UPPER_ROW →
        sect.takeWhile Token.isNum ≠ [] →
        resOk (tsplibLoadExplicit (some 0) fmt sect) = true) ∧
      ∀ (fmt : EWF) (sect : List Token),
        resOk (tsplibLoadExplicit none fmt sect) = false := by
  constructor
  · intro fmt sect _ h
    simp [tsplibLoadExplicit, parseExplicit, resOk, h]
  · intro fmt sect
    rfl

/-- Witness for C9: the amended theorem at FULL_MATRIX with a one-number
data section. -/
theorem C9_dimension_zero_accepted_witness :
    (EWF.FULL_MATRIX ≠ EWF.UPPER_ROW ∧
        ([Token.num 3] : List Token).takeWhile Token.isNum ≠ []) ∧
      resOk (tsplibLoadExplicit (some 0) EWF.FULL_MATRIX [Token.num 3]) = true :=
  ⟨⟨by decide, by decide⟩,
    C9_dimension_zero_accepted.1 EWF.FULL_MATRIX [Token.num 3]
      (by decide) (by decide)⟩

/-- Counterexample for C9: the loader constructor with DIMENSION 0,
EXPLICIT FULL_MATRIX and data section "1" completes and returns a matrix
instead of throwing. -/
theorem C9_dimension_zero_completes :
    resOk (tsplibLoadExplicit (some 0) EWF.FULL_MATRIX [Token.num 1]) = true := by
  decide

/-- Node record of the loader: `{index_t index; double x; double y;}`,
with doubles modelled as reals. -/
structure Node where
  index : ℕ
  x : ℝ
  y : ℝ

/-- Semantics of the C cast `(int) x` on a double: truncation toward
zero. -/
noncomputable def truncInt (x : ℝ) : ℤ :=
  if 0 ≤ x then ⌊x⌋ else ⌈x⌉

theorem truncInt_eq_floor {x : ℝ} (h : 0 ≤ x) : truncInt x = ⌊x⌋ :=
  if_pos h

/-- Rounding helper of the loader: `(int) (x + 0.5)`. -/
noncomputable def nint (x : ℝ) : ℤ :=
  truncInt (x + 1 / 2)

/-- EUC_2D distance. -/
noncomputable def euc_2D (i j : Node) : ℤ :=
  let xd := i.x - j.x
  let yd := i.y - j.y
  nint (Real.sqrt (xd * xd + yd * yd))

/-- CEIL_2D distance. -/
noncomputable def ceil_2D (i j : Node) : ℤ :=
  let xd := i.x - j.x
  let yd := i.y - j.y
  ⌈Real.sqrt (xd * xd + yd * yd)⌉

/-- ATT pseudo-Euclidean distance. -/
noncomputable def att (i j : Node) : ℤ :=
  let xd := i.x - j.x
  let yd := i.y - j.y
  let r := Real.sqrt ((xd * xd + yd * yd) / 10)
  let t := nint r
  if (t : ℝ) < r then t + 1 else t

/-- Truncated π constant of the loader (`static double constexpr PI`). -/
noncomputable def PI : ℝ := 3.141592

/-- Conversion of one degrees.minutes coordinate to radians:
`deg = (int) c; min = c - deg; PI * (deg + 5.0 * min / 3.0) / 180.0`. -/
noncomputable def radians (c : ℝ) : ℝ :=
  let deg : ℤ := truncInt c
  let mn : ℝ := c - (deg : ℝ)
  PI * ((deg : ℝ) + 5 * mn / 3) / 180

/-- GEO distance: latitudes from the x fields, longitudes from the y
fields, then `(int) (6378.388 * acos(0.5*((1.0+q1)*q2 - (1.0-q1)*q3)) + 1.0)`. -/
noncomputable def geo (i j : Node) : ℤ :=
  let lat_i := radians i.x
  let lon_i := radians i.y
  let lat_j := radians j.x
  let lon_j := radians j.y
  let q1 := Real.cos (lon_i - lon_j)
  let q2 := Real.cos (lat_i - lat_j)
  let q3 := Real.cos (lat_i + lat_j)
  truncInt (6378.388 * Real.arccos (0.5 * ((1 + q1) * q2 - (1 - q1) * q3)) + 1.0)

/-- Comparison definition for the C6 refinement claim, following the
specification's words: the distance is
floor(6378.388 · acos(0.5·((1+q1)·q2 − (1−q1)·q3)) + 1.0), treating the x
field as latitude and the y field as longitude, each coordinate converted
from degrees.minutes form as π·(deg + 5·frac/3)/180 radians with the
truncated constant PI = 3.141592 used verbatim. -/
noncomputable def geoSpecFormula (i j : Node) : ℤ :=
  let lat_i := radians i.x
  let lon_i := radians i.y
  let lat_j := radians j.x
  let lon_j := radians j.y
  let q1 := Real.cos (lon_i - lon_j)
  let q2 := Real.cos (lat_i - lat_j)
  let q3 := Real.cos (lat_i + lat_j)
  ⌊6378.388 * Real.arccos (0.5 * ((1 + q1) * q2 - (1 - q1) * q3)) + 1.0⌋

/-- Coordinate-path matrix over a node list, as built by the constructor
with the selected distance function. -/
noncomputable def coordMatrixNodes (f : Node → Node → ℤ) (nodes : List Node)
    (dim : ℕ) : Mat :=
  coordMatrix (fun i j => f (nodes.getD i ⟨0, 0, 0⟩) (nodes.getD j ⟨0, 0, 0⟩)) dim

/-- C3: the specification claims nint(x) = floor(x + 0.5) for every input.
The C cast truncates toward zero, which differs from the floor whenever
x + 0.5 is negative and non-integral (see the counterexample).  Amended:
the equality holds for every x ≥ -1/2, in particular for every
non-negative x, which covers every value nint receives inside the EUC_2D
and ATT computations (square roots). -/
theorem C3_nint_half_up_from_minus_half :
    ∀ x : ℝ, -(1 / 2) ≤ x → nint x = ⌊x + 1 / 2⌋ := by
  intro x hx
  unfold nint
  exact truncInt_eq_floor (by linarith)

/-- Witness for C3: the amended theorem at x = 0. -/
theorem C3_nint_half_up_from_minus_half_witness :
    -(1 / 2) ≤ (0 : ℝ) ∧ nint (0 : ℝ) = ⌊(0 : ℝ) + 1 / 2⌋ :=
  ⟨by norm_num, C3_nint_half_up_from_minus_half 0 (by norm_num)⟩

/-- Counterexample for C3: at x = -2 the cast gives
(int)(-1.5) = -1, while floor(-2 + 0.5) = -2. -/
theorem C3_nint_differs_on_negative :
    nint (-2 : ℝ) ≠ ⌊(-2 : ℝ) + 1 / 2⌋ := by
  have h1 : nint (-2 : ℝ) = -1 := by
    unfold nint truncInt
    rw [if_neg (by norm_num)]
    rw [Int.ceil_eq_iff]
    constructor <;> norm_num
  have h2 : ⌊(-2 : ℝ) + 1 / 2⌋ = -2 := by
    rw [Int.floor_eq_iff]
    constructor <;> norm_num
  rw [h1, h2]
  decide

/-- Branch of the ATT rule taken when the rounded value undershoots. -/
theorem att_of_lt (i j : Node) (r : ℝ)
    (hr : Real.sqrt (((i.x - j.x) * (i.x - j.x) +
      (i.y - j.y) * (i.y - j.y)) / 10) = r)
    (h : ((nint r : ℤ) : ℝ) < r) : att i j = nint r + 1 := by
  simp only [att]
  rw [hr, if_pos h]

/-- C5: for the ATT instance with points (0,0) and (1,0), r = sqrt(1/10)
lies strictly between 0 and 1/2, so t = nint(r) = 0 < r and the ATT rule
returns t + 1 = 1; the loaded matrix has m[0][1] = 1. -/
theorem C5_att_unit_distance :
    att ⟨0, 0, 0⟩ ⟨1, 1, 0⟩ = 1 ∧
      coordMatrixNodes att [⟨0, 0, 0⟩, ⟨1, 1, 0⟩] 2 0 1 = 1 := by
  have h0 : 0 < Real.sqrt (1 / 10) := Real.sqrt_pos.mpr (by norm_num)
  have h2 : Real.sqrt (1 / 10) < 1 / 2 := by
    rw [show (1 : ℝ) / 2 = Real.sqrt (1 / 4) by
      rw [show (1 : ℝ) / 4 = (1 / 2) ^ 2 by norm_num]
      exact (Real.sqrt_sq (by norm_num)).symm]
    exact Real.sqrt_lt_sqrt (by norm_num) (by norm_num)
  have ht : nint (Real.sqrt (1 / 10)) = 0 := by
    unfold nint truncInt
    rw [if_pos (by linarith)]
    rw [Int.floor_eq_iff]
    have hnn := Real.sqrt_nonneg ((1 : ℝ) / 10)
    constructor
    · push_cast
      linarith
    · push_cast
      linarith
  have hval : att ⟨0, 0, 0⟩ ⟨1, 1, 0⟩ = 1 := by
    have hbranch := att_of_lt ⟨0, 0, 0⟩ ⟨1, 1, 0⟩ (Real.sqrt (1 / 10))
      (by norm_num) (by rw [ht]; push_cast; exact h0)
    rw [hbranch, ht]
    decide
  refine ⟨hval, ?_⟩
  have hentry : coordMatrixNodes att [⟨0, 0, 0⟩, ⟨1, 1, 0⟩] 2 0 1
      = att ⟨0, 0, 0⟩ ⟨1, 1, 0⟩ := rfl
  rw [hentry, hval]

/-- C6: the GEO distance computed by the loader coincides, for every pair
of nodes, with the formula as the specification states it (including the
truncated PI constant): the final C cast agrees with the floor because
acos is non-negative, so 6378.388·acos(...) + 1.0 ≥ 1 ≥ 0. -/
theorem C6_geo_equals_spec_formula :
    ∀ i j : Node, geo i j = geoSpecFormula i j := by
  intro i j
  simp only [geo, geoSpecFormula]
  apply truncInt_eq_floor
  have h1 : 0 ≤ Real.arccos (0.5 *
      ((1 + Real.cos (radians i.y - radians j.y)) *
          Real.cos (radians i.x - radians j.x) -
        (1 - Real.cos (radians i.y - radians j.y)) *
          Real.cos (radians i.x + radians j.x))) := Real.arccos_nonneg _
  nlinarith

/-- Output of `get_route`, built character by character exactly as the C++
code builds its std::string.  The text `std::to_string` produces for a
node's x and y doubles is abstracted as an argument `coords` giving the two
character runs for each tour step, since no claim depends on the digits;
every structural element (brackets, commas, `pop_back`) is modelled
literally. -/
def get_route (ewt : EWT) (coords : ℕ → List Char × List Char)
    (tour : List ℕ) : List Char :=
  let result : List Char := []
  let result :=
    if ewt ≠ EWT.NONE ∧ ewt ≠ EWT.EXPLICIT then
      let route :=
        tour.foldl
          (fun acc step =>
            acc ++ "[".data ++ (coords step).1 ++ ",".data ++
              (coords step).2 ++ "],".data)
          "\"route\":[".data
      result ++ route.dropLast ++ "],".data
    else result
  let result :=
    tour.foldl (fun acc step => acc ++ (toString (step + 1)).data ++ ",".data)
      (result ++ "\"tour\":[".data)
  result.dropLast ++ "],".data

/-- Rank text of one tour step: the 1-based rank, as printed. -/
def rankChars (step : ℕ) : List Char := (toString (step + 1)).data

/-- Coordinate-pair text of one tour step. -/
def pairChars (coords : ℕ → List Char × List Char) (step : ℕ) : List Char :=
  "[".data ++ (coords step).1 ++ ",".data ++ (coords step).2 ++ "]".data

/-- Comma-separated join of the pieces of a JSON array body. -/
def joinComma : List (List Char) → List Char
  | [] => []
  | [x] => x
  | x :: y :: t => x ++ ",".data ++ joinComma (y :: t)

/-- Comparison definition for the C8 refinement claim, following the
specification's words: a "tour" key whose array lists the 1-based ranks in
visit order, preceded by a "route" key with the coordinate pairs in visit
order exactly when the instance is coordinate-based (edge-weight type not
EXPLICIT). -/
def get_route_spec (ewt : EWT) (coords : ℕ → List Char × List Char)
    (tour : List ℕ) : List Char :=
  (if ewt ≠ EWT.EXPLICIT then
      "\"route\":[".data ++ joinComma (tour.map (pairChars coords)) ++ "],".data
    else []) ++
    "\"tour\":[".data ++ joinComma (tour.map rankChars) ++ "],".data

theorem route_loop_eq (coords : ℕ → List Char × List Char) :
    ∀ (l : List ℕ) (init : List Char),
      l.foldl
          (fun acc step =>
            acc ++ "[".data ++ (coords step).1 ++ ",".data ++
              (coords step).2 ++ "],".data)
          init =
        init ++ (l.map (fun s => pairChars coords s ++ ",".data)).flatten := by
  intro l
  induction l with
  | nil => simp
  | cons a t ih =>
      intro init
      rw [List.foldl_cons, ih]
      simp [pairChars, List.append_assoc,
        show ("],".data : List Char) = "]".data ++ ",".data from rfl]

theorem tour_loop_eq :
    ∀ (l : List ℕ) (init : List Char),
      l.foldl
          (fun acc step => acc ++ (toString (step + 1)).data ++ ",".data)
          init =
        init ++ (l.map (fun s => rankChars s ++ ",".data)).flatten := by
  intro l
  induction l with
  | nil => simp
  | cons a t ih =>
      intro init
      rw [List.foldl_cons, ih]
      simp [rankChars, List.append_assoc]

theorem chunks_ne_nil (g : ℕ → List Char) (l : List ℕ) (h : l ≠ []) :
    ((l.map (fun s => g s ++ ",".data)).flatten) ≠ [] := by
  cases l with
  | nil => exact absurd rfl h
  | cons a t =>
      simp [show (",".data : List Char) = [','] from rfl]

theorem chunks_dropLast (g : ℕ → List Char) :
    ∀ (l : List ℕ), l ≠ [] →
      ((l.map (fun s => g s ++ ",".data)).flatten).dropLast =
        joinComma (l.map g) := by
  intro l
  induction l with
  | nil => exact fun h => absurd rfl h
  | cons x t ih =>
      intro _
      cases t with
      | nil =>
          simp only [List.map_cons, List.map_nil, List.flatten_cons,
            List.flatten_nil, List.append_nil, joinComma,
            show (",".data : List Char) = [','] from rfl]
          exact List.dropLast_concat
      | cons y t2 =>
          rw [List.map_cons, List.flatten_cons,
            List.dropLast_append_of_ne_nil _ (chunks_ne_nil g (y :: t2) (by simp)),
            ih (by simp)]
          simp [joinComma, List.append_assoc]

/-- C8: for every non-empty tour, get_route's output has exactly the
documented shape: an optional "route" key with the coordinate pairs in
visit order, present if and only if the edge-weight type is not EXPLICIT,
followed by the "tour" key listing the 1-based ranks in visit order.  The
hypothesis `ewt ≠ EWT.NONE` holds for every constructed loader (an
unrecognised type throws), and makes the code's condition
`ewt ≠ NONE ∧ ewt ≠ EXPLICIT` coincide with the claim's
"not EXPLICIT". -/
theorem C8_get_route_shape :
    ∀ (ewt : EWT) (coords : ℕ → List Char × List Char) (tour : List ℕ),
      tour ≠ [] → ewt ≠ EWT.NONE →
      get_route ewt coords tour = get_route_spec ewt coords tour := by
  intro ewt coords tour htour hn
  by_cases he : ewt = EWT.EXPLICIT
  · subst he
    simp only [get_route, get_route_spec]
    rw [if_neg (by simp), if_neg (by simp)]
    rw [tour_loop_eq,
      List.dropLast_append_of_ne_nil _ (chunks_ne_nil rankChars tour htour),
      chunks_dropLast rankChars tour htour]
  · simp only [get_route, get_route_spec]
    rw [if_pos ⟨hn, he⟩, if_pos he]
    rw [route_loop_eq,
      List.dropLast_append_of_ne_nil _
        (chunks_ne_nil (pairChars coords) tour htour),
      chunks_dropLast (pairChars coords) tour htour]
    rw [tour_loop_eq,
      List.dropLast_append_of_ne_nil _ (chunks_ne_nil rankChars tour htour),
      chunks_dropLast rankChars tour htour]
    simp [List.append_assoc]

/-- Witness for C8: the theorem at EUC_2D with the two-city tour [0, 1] and
a fixed coordinate rendering. -/
theorem C8_get_route_shape_witness :
    (([0, 1] : List ℕ) ≠ [] ∧ EWT.EUC_2D ≠ EWT.NONE) ∧
      get_route EWT.EUC_2D (fun _ => ("0".data, "0".data)) [0, 1] =
        get_route_spec EWT.EUC_2D (fun _ => ("0".data, "0".data)) [0, 1] :=
  ⟨⟨by decide, by decide⟩,
    C8_get_route_shape EWT.EUC_2D (fun _ => ("0".data, "0".data)) [0, 1]
      (by decide) (by decide)⟩

/-- C10: called with the empty tour, the `pop_back` that is meant to strip
a trailing comma instead removes the opening bracket, so the output
degenerates to the malformed fragment "tour":], — and for a
coordinate-based instance the "route" fragment degenerates the same way. -/
theorem C10_empty_tour_malformed :
    (∀ coords : ℕ → List Char × List Char,
        get_route EWT.EXPLICIT coords [] = "\"tour\":],".data) ∧
      ∀ coords : ℕ → List Char × List Char,
        get_route EWT.EUC_2D coords [] = "\"route\":],\"tour\":],".data := by
  constructor <;> intro coords <;> rfl
